import Mathlib

/-!
Verification of the event-dispatch and reply-correlation core of the
riscos-toolbox library (src/riscos_toolbox/events.py) against its
natural-language specification.  Python dicts are modelled as
insertion-ordered association lists, handler and callback functions by
numeric identifiers together with behaviour functions giving the value each
returns, and raised exceptions by Except.
-/

namespace RiscosToolbox

/-- Lookup in an insertion-ordered dictionary modelled as an association
list; mirrors Python dict indexing and the `in` test. -/
def dictGet {α β : Type} [DecidableEq α] : List (α × β) → α → Option β
  | [], _ => none
  | (k, v) :: rest, key => if k = key then some v else dictGet rest key

/-- Assignment d[k] = v on a Python dict: an existing key keeps its position
and has its value replaced, a new key is appended at the end. -/
def dictSet {α β : Type} [DecidableEq α] : List (α × β) → α → β → List (α × β)
  | [], key, v => [(key, v)]
  | (k, w) :: rest, key, v =>
      if k = key then (key, v) :: rest else (k, w) :: dictSet rest key v

/-- Deletion del d[k] on a Python dict. -/
def dictDel {α β : Type} [DecidableEq α] (d : List (α × β)) (key : α) :
    List (α × β) :=
  d.filter (fun p => decide (p.1 ≠ key))

/-- The keys of a dictionary, in iteration order. -/
def dictKeys {α β : Type} (d : List (α × β)) : List α := d.map Prod.fst

/-- Result of a Python handler or callback call, as far as dispatch inspects
it: the code only ever distinguishes the False singleton (the Continue
sentinel, tested with a literal `is not False`) from every other value,
including None, which a handler without a return statement produces. -/
inductive PyRes where
  | pyFalse
  | pyTrue
  | pyNone
  | pyInt (n : Int)
deriving DecidableEq

/-- Modelled from the spec: the numeric Wimp reason codes come from
riscos_toolbox/_consts.py, which is not among the sources; the spec only
needs the user-message, recorded-user-message and acknowledge (bounce)
delivery reasons to be distinct codes.  The standard RISC OS values are
used. -/
def Wimp.UserMessage : Nat := 17

/-- Modelled from the spec: the recorded user message reason code. -/
def Wimp.UserMessageRecorded : Nat := 18

/-- Modelled from the spec: the acknowledge (bounce) reason code. -/
def Wimp.UserMessageAcknowledge : Nat := 19

/-- Header data of a wimp message together with the delivery reason
(class MessageInfo, events.py lines 219 to 236); used as an int it gives the
message code, which is how message dispatch tables are keyed. -/
structure MessageInfo where
  reason : Nat
  size : Nat
  sender : Int
  my_ref : Nat
  your_ref : Nat
  code : Nat
deriving DecidableEq

/-- The parts of the toolbox id block that dispatch reads: self.id,
self.component, parent.id and ancestor.id. -/
structure IdBlock where
  selfId : Nat
  selfComponent : Nat
  parentId : Nat
  ancestorId : Nat
deriving DecidableEq

/-- Event.from_poll_block (events.py lines 69 to 86).  For a
ctypes.Structure subclass of declared size sizeofCls the classmethod raises
RuntimeError when the poll block is shorter than the declared size and
otherwise copies exactly bytes 0 to sizeofCls - 1 of the poll block into the
new record (the byte loop on lines 80 and 81), ignoring any trailing bytes;
for a class that is not a ctypes.Structure it raises the
not-implemented RuntimeError. -/
def Event.from_poll_block (isStructure : Bool) (sizeofCls : Nat)
    (poll_block : List Nat) : Except String (List Nat) :=
  if isStructure then
    if poll_block.length < sizeofCls then
      Except.error "RuntimeError: not enough data"
    else
      Except.ok (poll_block.take sizeofCls)
  else
    Except.error "RuntimeError: from_block not implemented"

/-- A value stored in the global handler registry.  _add_handler stores the
pair (handler, event_type) when it first creates a component map, but stores
the handler alone when it writes into an existing (event, class) component
map (events.py line 329).  Handler functions are identified by numeric ids;
event_type, the declared data class, is abstracted to its ctypes size (None
when registering by plain integer id). -/
inductive RegValue where
  | entry (handler : Nat) (dataClass : Option Nat)
  | bare (handler : Nat)
deriving DecidableEq

/-- The handler function held in a registry value. -/
def RegValue.fn : RegValue → Nat
  | .entry h _ => h
  | .bare h => h

/-- Shape of the three global registries (events.py lines 45 to 52 and
305 to 307): event code, then declaring class name (None for a module-level
function), then component id (None for the wildcard). -/
abbrev Registry := List (Nat × List (Option String × List (Option Nat × RegValue)))

/-- The nested _add_handler inside _set_handler (events.py lines 318 to
333), for a code that is already a plain integer or has been replaced by the
event_id of an Event subclass; eventType is None for an integer registration
and the declared event class (abstracted to its size) otherwise.  Note the
three dict paths: only the two creating paths store the
(handler, event_type) tuple, the overwrite path stores the bare handler. -/
def _add_handler (handlers : Registry) (code : Nat) (component : Option Nat)
    (cls : Option String) (handler : Nat) (eventType : Option Nat) : Registry :=
  match dictGet handlers code with
  | some clsMap =>
    match dictGet clsMap cls with
    | some compMap =>
        dictSet handlers code
          (dictSet clsMap cls (dictSet compMap component (RegValue.bare handler)))
    | none =>
        dictSet handlers code
          (dictSet clsMap cls [(component, RegValue.entry handler eventType)])
  | none =>
      dictSet handlers code [(cls, [(component, RegValue.entry handler eventType)])]

/-- The declaring class recorded by _set_handler (events.py lines 313 to
316): the qualname text before its last dot, or None for a plain
function. -/
def _qualname_class (qualname : String) : Option String :=
  let parts := qualname.splitOn "."
  if parts.length ≤ 1 then none
  else some (String.intercalate "." parts.dropLast)

/-- _set_handler (events.py lines 312 to 341) for a single, non-iterable
code. -/
def _set_handler (code : Nat) (component : Option Nat) (qualname : String)
    (handler : Nat) (eventType : Option Nat) (handlers : Registry) : Registry :=
  _add_handler handlers code component (_qualname_class qualname) handler eventType

/-- Per-instance handler table (events.py line 243): event, then component,
then the ordered list of registry values appended by _build_handlers. -/
abbrev InstTable := List (Nat × List (Option Nat × List RegValue))

/-- The nested _build_handlers inside EventHandler.__init__ (events.py lines
248 to 257): copy one declaring-class layer of one global registry into the
per-instance table, appending to any handler list already present for the
same event and component. -/
def _build_handlers (registry : Registry) (handlers : InstTable)
    (classname : String) : InstTable :=
  registry.foldl
    (fun hs p =>
      match dictGet p.2 (some classname) with
      | none => hs
      | some compMap =>
        compMap.foldl
          (fun hs2 q =>
            match dictGet hs2 p.1 with
            | none => dictSet hs2 p.1 [(q.1, [q.2])]
            | some evMap =>
              match dictGet evMap q.1 with
              | none => dictSet hs2 p.1 (dictSet evMap q.1 [q.2])
              | some lst => dictSet hs2 p.1 (dictSet evMap q.1 (lst ++ [q.2])))
          hs)
    handlers

/-- The three per-instance tables an EventHandler instance carries
(events.py lines 242 to 246). -/
structure EventHandler where
  toolbox_handlers : InstTable
  wimp_handlers : InstTable
  message_handlers : InstTable
deriving DecidableEq

/-- EventHandler.__init__ (events.py lines 242 to 267): walk the mro of the
instance, most-derived class first, and flatten each layer of the three
global registries into the instance tables. -/
def EventHandler.init (tb wimp msg : Registry) (mro : List String) : EventHandler :=
  mro.foldl
    (fun eh classname =>
      { toolbox_handlers := _build_handlers tb eh.toolbox_handlers classname
        wimp_handlers := _build_handlers wimp eh.wimp_handlers classname
        message_handlers := _build_handlers msg eh.message_handlers classname })
    ⟨[], [], []⟩

/-- One handler invocation observed during dispatch: the candidate object it
ran on, the handler function, and the value the handler returned. -/
structure InvRec where
  obj : Nat
  handler : Nat
  result : PyRes
deriving DecidableEq

/-- Handler behaviour: the value the Python handler function returns, given
the candidate object (self), the handler function, the event code, the id
block and the (decoded) data it is called with. -/
abbrev Beh := Nat → Nat → Nat → IdBlock → List Nat → PyRes

/-- The nested _data inside EventHandler._dispatch (events.py lines 276 to
279): decode the poll block through the registered data class when one was
declared, otherwise pass the raw poll block. -/
def _data (dataClass : Option Nat) (poll_block : List Nat) :
    Except String (List Nat) :=
  match dataClass with
  | none => Except.ok poll_block
  | some s => Event.from_poll_block true s poll_block

/-- One for-loop of EventHandler._dispatch (events.py lines 282 to 289): try
the handler entries in order, recording each completed invocation.  A bare
(non-tuple) registry value fails the tuple unpacking in the for statement
and a short poll block fails the decode; both raise.  The loop returns True
as soon as a handler returns anything other than False. -/
def tryHandlers (beh : Beh) (objId event : Nat) (id_block : IdBlock)
    (poll_block : List Nat) : List RegValue → List InvRec × Except String Bool
  | [] => ([], Except.ok false)
  | RegValue.bare _ :: _ => ([], Except.error "TypeError: cannot unpack handler")
  | RegValue.entry h dc :: rest =>
    match _data dc poll_block with
    | Except.error e => ([], Except.error e)
    | Except.ok d =>
      let r := beh objId h event id_block d
      if r = PyRes.pyFalse then
        let next := tryHandlers beh objId event id_block poll_block rest
        (⟨objId, h, r⟩ :: next.1, next.2)
      else ([⟨objId, h, r⟩], Except.ok true)

/-- The three values EventHandler._dispatch can produce: the explicit False
of line 271, the explicit True of lines 284 and 289, and the implicit None
when both loops fall through. -/
inductive DispatchRes where
  | rTrue
  | rFalse
  | rNone
deriving DecidableEq

/-- Python truthiness of a _dispatch result, which is all that the candidate
loops look at. -/
def DispatchRes.truthy : DispatchRes → Bool
  | .rTrue => true
  | _ => false

/-- EventHandler._dispatch (events.py lines 269 to 289): returns False when
the event has no entry in the instance table; otherwise tries the
component-specific handler list for id_block.self.component first and then
the wildcard (None) list, returning True as soon as a handler returns
non-False and falling off the end (None) when every tried handler returned
False.  The completed handler invocations are returned next to the
result. -/
def EventHandler._dispatch (beh : Beh) (objId : Nat) (handlers : InstTable)
    (event : Nat) (id_block : IdBlock) (poll_block : List Nat) :
    List InvRec × Except String DispatchRes :=
  match dictGet handlers event with
  | none => ([], Except.ok DispatchRes.rFalse)
  | some evMap =>
    let first :=
      match dictGet evMap (some id_block.selfComponent) with
      | none => ([], Except.ok false)
      | some lst => tryHandlers beh objId event id_block poll_block lst
    match first.2 with
    | Except.error e => (first.1, Except.error e)
    | Except.ok true => (first.1, Except.ok DispatchRes.rTrue)
    | Except.ok false =>
      match dictGet evMap none with
      | none => (first.1, Except.ok DispatchRes.rNone)
      | some lst =>
        let second := tryHandlers beh objId event id_block poll_block lst
        match second.2 with
        | Except.error e => (first.1 ++ second.1, Except.error e)
        | Except.ok true => (first.1 ++ second.1, Except.ok DispatchRes.rTrue)
        | Except.ok false => (first.1 ++ second.1, Except.ok DispatchRes.rNone)

/-- A dispatch-capable toolbox object: its object id and its per-instance
handler tables. -/
structure TBObject where
  objId : Nat
  handler : EventHandler
deriving DecidableEq

/-- Iteration order of the CPython set built by _get_spaa, for the case in
which every element is a natural number below 8: a freshly built set of at
most five elements has an eight-slot table, the CPython hash of a small
non-negative int is the int itself, so element i sits alone in slot i and
iteration, which scans the slots in increasing index order, yields the
distinct elements in increasing numeric order regardless of insertion
order. -/
def pySetIterSmall (xs : List Nat) : List Nat :=
  (List.range 8).filter (fun i => xs.contains i)

/-- _get_spaa (events.py lines 405 to 417): the ordered candidate objects
for one event.  The self, parent and ancestor ids are put through a Python
set - whose iteration order is a CPython implementation detail, passed in
here as setOrder - the resulting ids are resolved with get_object, the
unresolved ones are dropped, and the application object is appended when one
is registered. -/
def _get_spaa (setOrder : List Nat → List Nat) (getObject : Nat → Option TBObject)
    (application : Option TBObject) (id_block : IdBlock) : List TBObject :=
  (setOrder [id_block.selfId, id_block.parentId, id_block.ancestorId]).filterMap
      getObject
    ++ (match application with | some a => [a] | none => [])

/-- The candidate loop shared by toolbox_dispatch, message_dispatch and
wimp_dispatch (events.py lines 421 to 423, 439 to 441 and 445 to 447): try
each candidate object in turn and stop at the first truthy _dispatch
result. -/
def dispatchLoop (beh : Beh) (event : Nat) (id_block : IdBlock)
    (poll_block : List Nat) :
    List (Nat × InstTable) → List InvRec × Except String Unit
  | [] => ([], Except.ok ())
  | (oid, tbl) :: rest =>
    let step := EventHandler._dispatch beh oid tbl event id_block poll_block
    match step.2 with
    | Except.error e => (step.1, Except.error e)
    | Except.ok r =>
      if r.truthy then (step.1, Except.ok ())
      else
        let next := dispatchLoop beh event id_block poll_block rest
        (step.1 ++ next.1, next.2)

/-- toolbox_dispatch (events.py lines 420 to 423). -/
def toolbox_dispatch (setOrder : List Nat → List Nat) (beh : Beh)
    (event_code : Nat) (getObject : Nat → Option TBObject)
    (application : Option TBObject) (id_block : IdBlock)
    (poll_block : List Nat) : List InvRec × Except String Unit :=
  dispatchLoop beh event_code id_block poll_block
    ((_get_spaa setOrder getObject application id_block).map
      (fun o => (o.objId, o.handler.toolbox_handlers)))

/-- The module-level _reply_callbacks table (events.py line 309): reference
number to callback function. -/
abbrev ReplyCallbacks := List (Nat × Nat)

/-- Behaviour of a reply callback: given the callback function and the poll
block it is called with (None for the no-reply case), the value it returns
and the pending entries that sends performed inside the callback add to
_reply_callbacks while it runs. -/
abbrev CbBeh := Nat → Option (List Nat) → PyRes × List (Nat × Nat)

/-- The entries a callback added while it ran, applied in order. -/
def applyAdds (st : ReplyCallbacks) (adds : List (Nat × Nat)) : ReplyCallbacks :=
  adds.foldl (fun s p => dictSet s p.1 p.2) st

/-- Everything one call of message_dispatch did: the _reply_callbacks table
afterwards, the reply-callback invocations (callback, payload) in order,
whether the message fell through to the normal candidate loop, and that
loop's handler invocations and outcome. -/
structure MsgOut where
  state : ReplyCallbacks
  cbCalls : List (Nat × Option (List Nat))
  normal : Bool
  handlerCalls : List InvRec
  dispatchResult : Except String Unit

/-- message_dispatch (events.py lines 426 to 441): a message whose your_ref
matches a pending callback fires and removes that callback and stops unless
the callback returned False; then an acknowledge whose my_ref matches a
pending callback does the same; otherwise the message goes through the
normal candidate loop keyed by its message code. -/
def message_dispatch (setOrder : List Nat → List Nat) (beh : Beh) (cbBeh : CbBeh)
    (getObject : Nat → Option TBObject) (application : Option TBObject)
    (st : ReplyCallbacks) (info : MessageInfo) (id_block : IdBlock)
    (poll_block : List Nat) : MsgOut :=
  let normalStep : ReplyCallbacks → List (Nat × Option (List Nat)) → MsgOut :=
    fun st2 calls =>
      let loop := dispatchLoop beh info.code id_block poll_block
        ((_get_spaa setOrder getObject application id_block).map
          (fun o => (o.objId, o.handler.message_handlers)))
      ⟨st2, calls, true, loop.1, loop.2⟩
  let bounceStep : ReplyCallbacks → List (Nat × Option (List Nat)) → MsgOut :=
    fun st1 calls =>
      if info.reason = Wimp.UserMessageAcknowledge then
        match dictGet st1 info.my_ref with
        | some cb =>
          let rc := cbBeh cb (some poll_block)
          let st2 := dictDel (applyAdds st1 rc.2) info.my_ref
          if rc.1 = PyRes.pyFalse then
            normalStep st2 (calls ++ [(cb, some poll_block)])
          else ⟨st2, calls ++ [(cb, some poll_block)], false, [], Except.ok ()⟩
        | none => normalStep st1 calls
      else normalStep st1 calls
  match dictGet st info.your_ref with
  | some cb =>
    let rc := cbBeh cb (some poll_block)
    let st1 := dictDel (applyAdds st rc.2) info.your_ref
    if rc.1 = PyRes.pyFalse then bounceStep st1 [(cb, some poll_block)]
    else ⟨st1, [(cb, some poll_block)], false, [], Except.ok ()⟩
  | none => bounceStep st []

/-- The loop of null_poll over the snapshot of the outstanding reference
numbers; the state is read again at each step, as the Python subscript
does, and a reference missing from the live table raises KeyError. -/
def null_poll_go (cbBeh : CbBeh) :
    List Nat → ReplyCallbacks → List (Nat × Option (List Nat)) →
    Except String (ReplyCallbacks × List (Nat × Option (List Nat)))
  | [], st, calls => Except.ok (st, calls)
  | ref :: rest, st, calls =>
    match dictGet st ref with
    | none => Except.error "KeyError"
    | some cb =>
      let rc := cbBeh cb none
      null_poll_go cbBeh rest (dictDel (applyAdds st rc.2) ref)
        (calls ++ [(cb, none)])

/-- null_poll (events.py lines 454 to 457): snapshot the outstanding
reference numbers with list(keys()), then call each callback with None and
delete its entry. -/
def null_poll (cbBeh : CbBeh) (st : ReplyCallbacks) :
    Except String (ReplyCallbacks × List (Nat × Option (List Nat))) :=
  null_poll_go cbBeh (dictKeys st) st []

/-- null_polls (events.py lines 450 and 451). -/
def null_polls (st : ReplyCallbacks) : Bool := decide (0 < st.length)

/-- Every recorded invocation returned the Continue sentinel False. -/
def allContinue (l : List InvRec) : Bool :=
  l.all (fun a => decide (a.result = PyRes.pyFalse))

/-- Every recorded invocation except possibly the last returned the Continue
sentinel False: the shape of a trace in which the first non-Continue result,
if any, ended everything on the spot. -/
def allButLastContinue : List InvRec → Bool
  | [] => true
  | [_] => true
  | a :: b :: rest =>
      decide (a.result = PyRes.pyFalse) && allButLastContinue (b :: rest)

/-- One registration call as it reaches _add_handler: the (already integer)
event code, the component filter, the declaring class derived from the
qualname, the handler function and the declared event data class. -/
structure RegOp where
  code : Nat
  component : Option Nat
  cls : Option String
  handler : Nat
  eventType : Option Nat

/-- A whole registration phase: fold the _add_handler calls over the empty
registry. -/
def applyRegOps (ops : List RegOp) : Registry :=
  ops.foldl
    (fun reg op =>
      _add_handler reg op.code op.component op.cls op.handler op.eventType)
    []

/-- The dict-shape invariant of the registry: no duplicate key at any of the
three levels, so the registry holds at most one value per
(event, class, component) triple. -/
def RegistryWF (reg : Registry) : Prop :=
  (dictKeys reg).Nodup ∧
  ∀ p ∈ reg, (dictKeys p.2).Nodup ∧ ∀ q ∈ p.2, (dictKeys q.2).Nodup

/-- Lookup of the registry value stored for one (event, class, component)
triple. -/
def dictGet3 (reg : Registry) (e : Nat) (cls : Option String)
    (c : Option Nat) : Option RegValue :=
  match dictGet reg e with
  | none => none
  | some m =>
    match dictGet m cls with
    | none => none
    | some m2 => dictGet m2 c

/-- A ctypes field value of an AboutToBeShownEvent record: plain integer
fields, and the Point and BBox record types from riscos_toolbox._types.
Modelled from the spec: _types.py is not among the sources; the spec treats
these as opaque fixed-width fields, so a Point is abstracted to its two
coordinates and a BBox to its two corner points, which is all the property
accessors pass through. -/
inductive CtVal where
  | int (n : Int)
  | point (x y : Int)
  | bbox (minx miny maxx maxy : Int)
deriving DecidableEq

/-- Reading an attribute of a decoded ctypes record: the attribute table
maps the declared field names to field values, and a name that was never
declared raises AttributeError. -/
def pygetattr (attrs : List (String × CtVal)) (name : String) :
    Except String CtVal :=
  match dictGet attrs name with
  | some v => Except.ok v
  | none => Except.error ("AttributeError: " ++ name)

/-- Result of reading an AboutToBeShownEvent property: a field value, or the
explicit None that get_if substitutes when the show_type selector does not
match. -/
inductive PropVal where
  | val (v : CtVal)
  | pyNone
deriving DecidableEq

/-- ShowType_FullSpec (events.py line 100). -/
def AboutToBeShownEvent.ShowType_FullSpec : Int := 1

/-- ShowType_TopLeft (events.py line 101). -/
def AboutToBeShownEvent.ShowType_TopLeft : Int := 2

/-- AboutToBeShownEvent.get_if (events.py lines 114 and 115). -/
def AboutToBeShownEvent.get_if (show_type : Int) (value : CtVal) (st : Int) :
    PropVal :=
  if show_type = st then PropVal.val value else PropVal.pyNone

/-- The attribute table a decoded AboutToBeShownEvent exposes: one entry per
declared ctypes field, the four ToolboxEvent header fields (events.py lines
90 to 95) followed by the AboutToBeShownEvent fields (events.py lines 105 to
112).  The parent window handle field is declared under the name
"+parent_window_handle", exactly as written in the source field list. -/
def aboutToBeShownAttrs (size reference_number event_code flags : Int)
    (show_type : Int) (visible_area scroll : CtVal) (behind : Int)
    (window_flags : Int) (parent_window_handle : Int)
    (alignment_flags : Int) : List (String × CtVal) :=
  [("size", CtVal.int size),
   ("reference_number", CtVal.int reference_number),
   ("event_code", CtVal.int event_code),
   ("flags", CtVal.int flags),
   ("show_type", CtVal.int show_type),
   ("_visible_area", visible_area),
   ("_scroll", scroll),
   ("_behind", CtVal.int behind),
   ("_window_flags", CtVal.int window_flags),
   ("+parent_window_handle", CtVal.int parent_window_handle),
   ("_alignment_flags", CtVal.int alignment_flags)]

/-- The show_type selector field of a record, as self.show_type reads it. -/
def AboutToBeShownEvent.showTypeOf (attrs : List (String × CtVal)) :
    Except String Int :=
  match pygetattr attrs "show_type" with
  | Except.ok (CtVal.int n) => Except.ok n
  | Except.ok _ => Except.error "TypeError: show_type"
  | Except.error e => Except.error e

/-- A property of the shape get_if(self.<field>, <show type>) (events.py
lines 117 to 150): the field attribute is read first, then get_if compares
self.show_type with the given show type. -/
def AboutToBeShownEvent.condProp (attrs : List (String × CtVal))
    (field : String) (st : Int) : Except String PropVal := do
  let v ← pygetattr attrs field
  let sel ← AboutToBeShownEvent.showTypeOf attrs
  return AboutToBeShownEvent.get_if sel v st

/-- The visible_area property (events.py lines 122 to 125). -/
def AboutToBeShownEvent.visible_area (attrs : List (String × CtVal)) :
    Except String PropVal :=
  AboutToBeShownEvent.condProp attrs "_visible_area"
    AboutToBeShownEvent.ShowType_FullSpec

/-- The scroll property (events.py lines 127 to 130). -/
def AboutToBeShownEvent.scroll (attrs : List (String × CtVal)) :
    Except String PropVal :=
  AboutToBeShownEvent.condProp attrs "_scroll"
    AboutToBeShownEvent.ShowType_FullSpec

/-- The behind property (events.py lines 132 to 135). -/
def AboutToBeShownEvent.behind (attrs : List (String × CtVal)) :
    Except String PropVal :=
  AboutToBeShownEvent.condProp attrs "_behind"
    AboutToBeShownEvent.ShowType_FullSpec

/-- The window_flags property (events.py lines 137 to 140). -/
def AboutToBeShownEvent.window_flags (attrs : List (String × CtVal)) :
    Except String PropVal :=
  AboutToBeShownEvent.condProp attrs "_window_flags"
    AboutToBeShownEvent.ShowType_FullSpec

/-- The parent_window_handle property (events.py lines 142 to 145): it reads
self._parent_window_handle, a name the field list never declares (the field
is declared as "+parent_window_handle"). -/
def AboutToBeShownEvent.parent_window_handle (attrs : List (String × CtVal)) :
    Except String PropVal :=
  AboutToBeShownEvent.condProp attrs "_parent_window_handle"
    AboutToBeShownEvent.ShowType_FullSpec

/-- The alignment_flags property (events.py lines 147 to 150). -/
def AboutToBeShownEvent.alignment_flags (attrs : List (String × CtVal)) :
    Except String PropVal :=
  AboutToBeShownEvent.condProp attrs "_alignment_flags"
    AboutToBeShownEvent.ShowType_FullSpec

/-- The top_left property (events.py lines 117 to 120): it passes
self._visible_area.min, the minimum corner point of the BBox, to get_if with
ShowType_TopLeft. -/
def AboutToBeShownEvent.top_left (attrs : List (String × CtVal)) :
    Except String PropVal := do
  let v ← pygetattr attrs "_visible_area"
  match v with
  | CtVal.bbox minx miny _ _ => do
    let sel ← AboutToBeShownEvent.showTypeOf attrs
    return AboutToBeShownEvent.get_if sel (CtVal.point minx miny)
      AboutToBeShownEvent.ShowType_TopLeft
  | _ => Except.error "AttributeError: min"

/-- A Python value appearing as a positional argument of the send call. -/
inductive PyVal where
  | int (n : Int)
  | vNone
  | callback (c : Nat)
deriving DecidableEq

/-- The positional parameters of UserMessage._send after self (events.py
line 204): reason, target, icon, size and reply_callback - five parameters,
all required, since _send declares no defaults. -/
def sendParams : List String := ["reason", "target", "icon", "size", "reply_callback"]

/-- Binding of positional arguments to parameters at a Python call site: a
TypeError at call time, before any of the body runs, when the counts
differ. -/
def pyBindArgs (params : List String) (args : List PyVal) :
    Except String (List (String × PyVal)) :=
  if args.length = params.length then Except.ok (params.zip args)
  else Except.error "TypeError: wrong number of arguments for _send"

/-- The body of UserMessage._send (events.py lines 204 to 213) once its
arguments are bound: Wimp_SendMessage transmits the block and fills in the
my_ref field (both external, modelled by the myRef and swiHandle
parameters); when a reply callback was supplied it is stored in
_reply_callbacks under my_ref, and the swi handle is returned for a
non-broadcast target. -/
def UserMessage.send_body (reply_callback : Option Nat) (target : Int)
    (myRef : Nat) (swiHandle : Int) (st : ReplyCallbacks) :
    ReplyCallbacks × Option Int :=
  let st2 := match reply_callback with
    | some cbf => dictSet st myRef cbf
    | none => st
  (st2, if target ≠ 0 then some swiHandle else none)

/-- Python truthiness of an optional integer argument, as the if chain of
UserMessage.send tests task, window and iconbar. -/
def pyTruthyInt : Option Int → Bool
  | none => false
  | some n => decide (n ≠ 0)

/-- The positional argument list UserMessage.send builds for its call to
_send (events.py lines 187 and 188): reason, handle, icon and
reply_callback - four arguments. -/
def sendCallArgs (recorded : Bool) (handle icon : Int)
    (reply_callback : Option Nat) : List PyVal :=
  [PyVal.int (Int.ofNat
      (if recorded then Wimp.UserMessageRecorded else Wimp.UserMessage)),
   PyVal.int handle, PyVal.int icon,
   match reply_callback with
   | some c => PyVal.callback c
   | none => PyVal.vNone]

/-- UserMessage.send (events.py lines 173 to 188): clear your_ref, pick the
destination handle and icon from task, window and iconbar, then call _send.
The call passes four positional arguments for the five required parameters
of _send, so argument binding decides what happens before any of the _send
body can run. -/
def UserMessage.send (task window iconbar : Option Int) (recorded : Bool)
    (size : Option Nat) (reply_callback : Option Nat) (myRef : Nat)
    (swiHandle : Int) (st : ReplyCallbacks) :
    Except String (ReplyCallbacks × Option Int) :=
  let hi : Int × Int :=
    if pyTruthyInt task then (task.getD 0, 0)
    else if pyTruthyInt window then (window.getD 0, 0)
    else if pyTruthyInt iconbar then (-2, iconbar.getD 0)
    else (0, 0)
  match pyBindArgs sendParams (sendCallArgs recorded hi.1 hi.2 reply_callback) with
  | Except.error e => Except.error e
  | Except.ok bound =>
    match dictGet bound "target", dictGet bound "reply_callback" with
    | some (PyVal.int target), some rc =>
      Except.ok (UserMessage.send_body
        (match rc with | PyVal.callback c => some c | _ => none)
        target myRef swiHandle st)
    | _, _ => Except.error "TypeError: bad argument"

/-- The resolver used in the candidate-order counterexample: toolbox objects
1, 2 and 3 exist (with empty handler tables, which candidate collection
never looks at) and every other id is unresolvable. -/
def c2GetObject : Nat → Option TBObject := fun i =>
  if i = 1 ∨ i = 2 ∨ i = 3 then some ⟨i, ⟨[], [], []⟩⟩ else none

/-- The record attribute table used for the AboutToBeShownEvent claims, with
show_type = ShowType_FullSpec, _behind = 7 and the parent window handle
field holding 99. -/
def c8AttrsFull : List (String × CtVal) :=
  aboutToBeShownAttrs 60 0 163985 0 1 (CtVal.bbox 10 20 650 532)
    (CtVal.point 0 0) 7 3 99 5

/-- The same record with show_type = ShowType_TopLeft. -/
def c8AttrsTopLeft : List (String × CtVal) :=
  aboutToBeShownAttrs 60 0 163985 0 2 (CtVal.bbox 10 20 650 532)
    (CtVal.point 0 0) 7 3 99 5

/-- Lookup of the per-instance handler list for one event and component. -/
def dictGet2 (tbl : InstTable) (event : Nat) (component : Option Nat) :
    Option (List RegValue) :=
  match dictGet tbl event with
  | none => none
  | some m => dictGet m component

/-- The toolbox registry of the layer-versus-component scenario: class A
registers handler hA for event e restricted to component c, its subclass B
registers handler hB for the same event with no component (the wildcard);
both by plain integer event id, as @toolbox_handler(e, c) and
@toolbox_handler(e) do. -/
def c1Registry (e c hA hB : Nat) (A B : String) : Registry :=
  _add_handler (_add_handler [] e (some c) (some A) hA none) e none (some B) hB
    none

/-- The toolbox table of a B instance in the layer-versus-component
scenario, built by EventHandler.__init__ over the mro of B. -/
def c1Table (e c hA hB : Nat) (A B : String) : InstTable :=
  (EventHandler.init (c1Registry e c hA hB A B) [] [] [B, A]).toolbox_handlers

/-- The toolbox registry of the same-filter subclass scenario: class A and
its subclass B each register a handler for event e under the same component
filter f. -/
def c9Registry (e : Nat) (f : Option Nat) (hA hB : Nat) (dcA dcB : Option Nat)
    (A B : String) : Registry :=
  _add_handler (_add_handler [] e f (some A) hA dcA) e f (some B) hB dcB

/-- A reply-callback behaviour whose result is never False and which sends
nothing. -/
def c3CbTrue : CbBeh := fun _ _ => (PyRes.pyTrue, [])

/-- A handler behaviour that always returns the Continue sentinel. -/
def c3NoBeh : Beh := fun _ _ _ _ _ => PyRes.pyFalse

/-- A resolver under which no object id resolves. -/
def c3GetNone : Nat → Option TBObject := fun _ => none

/-- A plain user message whose your_ref is 7. -/
def c3M1 : MessageInfo := ⟨17, 24, 0, 5, 7, 99⟩

/-- A second plain user message, also with your_ref 7. -/
def c3M2 : MessageInfo := ⟨17, 24, 0, 6, 7, 99⟩

/-- An id block with nothing resolvable. -/
def c3Idb : IdBlock := ⟨0, 0, 0, 0⟩

/-- The callback behaviour of the idle-drain witness: callback 10 sends a
new message whose reply entry goes in under the fresh reference 5, callback
11 does nothing. -/
def c4CbBeh : CbBeh := fun cb _ =>
  if cb = 10 then (PyRes.pyTrue, [(5, 12)]) else (PyRes.pyFalse, [])

/-- C6: decoding a record of declared minimum length S from a shorter buffer
raises the truncated-payload RuntimeError, and decoding from a buffer of
length at least S succeeds and populates the record from exactly the first S
bytes, ignoring any trailing bytes. -/
theorem from_poll_block_length_spec (S : Nat) (buf : List Nat) :
    (buf.length < S →
      Event.from_poll_block true S buf
        = Except.error "RuntimeError: not enough data") ∧
    (S ≤ buf.length →
      Event.from_poll_block true S buf = Except.ok (buf.take S)) := by
  constructor
  · intro h
    simp [Event.from_poll_block, h]
  · intro h
    simp [Event.from_poll_block, Nat.not_lt.mpr h]

/-- Witness for C6: a declared size of 4 fails on a 3-byte buffer and, on a
6-byte buffer, succeeds with exactly the first 4 bytes. -/
theorem from_poll_block_length_witness :
    Event.from_poll_block true 4 [1, 2, 3]
        = Except.error "RuntimeError: not enough data" ∧
    Event.from_poll_block true 4 [1, 2, 3, 4, 5, 6]
        = Except.ok [1, 2, 3, 4] := by
  constructor
  · exact (from_poll_block_length_spec 4 [1, 2, 3]).1 (by decide)
  · have h := (from_poll_block_length_spec 4 [1, 2, 3, 4, 5, 6]).2 (by decide)
    rw [h]
    rfl

/-- C5: UserMessage.send never reaches the _send body at all - the call on
events.py lines 187 and 188 passes four positional arguments (reason,
handle, icon, reply_callback) to a method requiring five, so every call,
reply callback or not, raises TypeError; nothing is transmitted, no pending
reply is stored and no reference number is returned. -/
theorem send_always_type_error (task window iconbar : Option Int)
    (recorded : Bool) (size : Option Nat) (reply_callback : Option Nat)
    (myRef : Nat) (swiHandle : Int) (st : ReplyCallbacks) :
    UserMessage.send task window iconbar recorded size reply_callback myRef
        swiHandle st
      = Except.error "TypeError: wrong number of arguments for _send" := rfl

/-- C2: with self id 2, parent id 1 and ancestor id 3, all three resolvable
and no application object, _get_spaa yields the candidates in the iteration
order of the CPython set of the ids - 1, 2, 3, the parent before the self
object - and not in the documented self, parent, ancestor order 2, 1, 3. -/
theorem spaa_set_order_bug :
    ((_get_spaa pySetIterSmall c2GetObject none ⟨2, 0, 1, 3⟩).map TBObject.objId
      = [1, 2, 3]) ∧ [1, 2, 3] ≠ ([2, 1, 3] : List Nat) := by
  exact ⟨rfl, by decide⟩

/-- C8: on a record whose show_type selector is ShowType_FullSpec, reading
parent_window_handle raises AttributeError - the field list declares the
field as "+parent_window_handle" while the property reads
self._parent_window_handle - instead of yielding the decoded value 99; the
conditional-field pattern itself behaves as claimed on the other fields,
shown here for behind: the value when the selector matches, the explicit
None when it does not. -/
theorem about_to_be_shown_parent_window_handle_bug :
    AboutToBeShownEvent.parent_window_handle c8AttrsFull
        = Except.error "AttributeError: _parent_window_handle" ∧
    AboutToBeShownEvent.behind c8AttrsFull
        = Except.ok (PropVal.val (CtVal.int 7)) ∧
    AboutToBeShownEvent.behind c8AttrsTopLeft = Except.ok PropVal.pyNone :=
  ⟨rfl, rfl, rfl⟩

theorem dictGet_dictSet_self {α β : Type} [DecidableEq α] (d : List (α × β))
    (k : α) (v : β) : dictGet (dictSet d k v) k = some v := by
  induction d with
  | nil => simp [dictSet, dictGet]
  | cons p rest ih =>
    obtain ⟨k1, v1⟩ := p
    by_cases hk : k1 = k
    · simp [dictSet, hk, dictGet]
    · simp [dictSet, hk, dictGet, ih]

theorem dictGet_mem {α β : Type} [DecidableEq α] (d : List (α × β)) (k : α)
    (v : β) : dictGet d k = some v → (k, v) ∈ d := by
  induction d with
  | nil => simp [dictGet]
  | cons p rest ih =>
    obtain ⟨k1, v1⟩ := p
    by_cases hk : k1 = k
    · subst hk
      simp [dictGet]
      intro hv
      exact Or.inl hv.symm
    · simp [dictGet, hk]
      intro hv
      exact Or.inr (ih hv)

theorem mem_dictSet {α β : Type} [DecidableEq α] (d : List (α × β)) (k : α)
    (v : β) (p : α × β) : p ∈ dictSet d k v → p = (k, v) ∨ p ∈ d := by
  induction d with
  | nil => simp [dictSet]
  | cons q rest ih =>
    obtain ⟨k1, v1⟩ := q
    by_cases hk : k1 = k
    · simp [dictSet, hk]
      rintro (h | h)
      · exact Or.inl h
      · exact Or.inr (Or.inr h)
    · simp [dictSet, hk]
      rintro (h | h)
      · exact Or.inr (Or.inl h)
      · rcases ih h with h2 | h2
        · exact Or.inl h2
        · exact Or.inr (Or.inr h2)

theorem mem_keys_dictSet {α β : Type} [DecidableEq α] (d : List (α × β))
    (k : α) (v : β) (a : α) :
    a ∈ dictKeys (dictSet d k v) ↔ a ∈ dictKeys d ∨ a = k := by
  induction d with
  | nil => simp [dictSet, dictKeys, eq_comm]
  | cons q rest ih =>
    obtain ⟨k1, v1⟩ := q
    by_cases hk : k1 = k
    · subst hk
      simp [dictSet, dictKeys, eq_comm]
      tauto
    · simp [dictSet, hk, dictKeys] at ih ⊢
      tauto

theorem dictKeys_nil {α β : Type} : dictKeys ([] : List (α × β)) = [] := rfl

theorem dictKeys_cons {α β : Type} (p : α × β) (d : List (α × β)) :
    dictKeys (p :: d) = p.1 :: dictKeys d := rfl

theorem nodup_keys_dictSet {α β : Type} [DecidableEq α] (d : List (α × β))
    (k : α) (v : β) :
    (dictKeys d).Nodup → (dictKeys (dictSet d k v)).Nodup := by
  induction d with
  | nil => intro _; simp [dictSet, dictKeys]
  | cons q rest ih =>
    obtain ⟨k1, v1⟩ := q
    intro hnd
    rw [dictKeys_cons, List.nodup_cons] at hnd
    by_cases hk : k1 = k
    · subst hk
      rw [show dictSet ((k1, v1) :: rest) k1 v = (k1, v) :: rest by
            simp [dictSet],
        dictKeys_cons, List.nodup_cons]
      exact hnd
    · rw [show dictSet ((k1, v1) :: rest) k v = (k1, v1) :: dictSet rest k v by
            simp [dictSet, hk],
        dictKeys_cons, List.nodup_cons]
      constructor
      · intro hmem
        rcases (mem_keys_dictSet rest k v k1).mp hmem with h | h
        · exact hnd.1 h
        · exact hk h
      · exact ih hnd.2

theorem dictGet_eq_none_of_not_mem {α β : Type} [DecidableEq α]
    (d : List (α × β)) (k : α) : k ∉ dictKeys d → dictGet d k = none := by
  induction d with
  | nil => intro _; rfl
  | cons q rest ih =>
    obtain ⟨k1, v1⟩ := q
    intro hmem
    rw [dictKeys_cons, List.mem_cons, not_or] at hmem
    rw [dictGet, if_neg (fun hh => hmem.1 hh.symm)]
    exact ih hmem.2

theorem dictGet_dictDel_self {α β : Type} [DecidableEq α] (d : List (α × β))
    (k : α) : dictGet (dictDel d k) k = none := by
  induction d with
  | nil => rfl
  | cons q rest ih =>
    obtain ⟨k1, v1⟩ := q
    by_cases hk : k1 = k
    · simpa [dictDel, hk] using ih
    · simpa [dictDel, dictGet, hk] using ih

theorem dictDel_of_not_mem {α β : Type} [DecidableEq α] (d : List (α × β))
    (k : α) : k ∉ dictKeys d → dictDel d k = d := by
  intro hmem
  unfold dictDel
  rw [List.filter_eq_self]
  intro p hp
  have : p.1 ≠ k := by
    intro he
    exact hmem (by simpa [dictKeys, he] using List.mem_map_of_mem Prod.fst hp)
  simpa using this

theorem dictDel_append {α β : Type} [DecidableEq α] (l1 l2 : List (α × β))
    (k : α) : dictDel (l1 ++ l2) k = dictDel l1 k ++ dictDel l2 k := by
  simp [dictDel]

theorem dictSet_append_fresh {α β : Type} [DecidableEq α]
    (l1 l2 : List (α × β)) (k : α) (v : β) :
    k ∉ dictKeys l1 → dictSet (l1 ++ l2) k v = l1 ++ dictSet l2 k v := by
  induction l1 with
  | nil => intro _; rfl
  | cons q rest ih =>
    obtain ⟨k1, v1⟩ := q
    intro hmem
    rw [dictKeys_cons, List.mem_cons, not_or] at hmem
    rw [List.cons_append, dictSet, if_neg (fun hh => hmem.1 hh.symm),
      ih hmem.2, List.cons_append]

/-- Well-formedness of the registry survives one _add_handler call. -/
theorem registryWF_add (reg : Registry) (e : Nat) (c : Option Nat)
    (cls : Option String) (h : Nat) (et : Option Nat) :
    RegistryWF reg → RegistryWF (_add_handler reg e c cls h et) := by
  rintro ⟨h1, h2⟩
  unfold _add_handler
  cases hge : dictGet reg e with
  | none =>
    dsimp only
    refine ⟨nodup_keys_dictSet _ _ _ h1, ?_⟩
    intro p hp
    rcases mem_dictSet _ _ _ _ hp with hp1 | hp2
    · subst hp1
      constructor
      · simp [dictKeys]
      · intro q hq
        simp at hq
        subst hq
        simp [dictKeys]
    · exact h2 _ hp2
  | some clsMap =>
    have hmem : (e, clsMap) ∈ reg := dictGet_mem _ _ _ hge
    obtain ⟨hcnd, hcin⟩ := h2 _ hmem
    dsimp only
    cases hgc : dictGet clsMap cls with
    | none =>
      dsimp only
      refine ⟨nodup_keys_dictSet _ _ _ h1, ?_⟩
      intro p hp
      rcases mem_dictSet _ _ _ _ hp with hp1 | hp2
      · subst hp1
        refine ⟨nodup_keys_dictSet _ _ _ hcnd, ?_⟩
        intro q hq
        rcases mem_dictSet _ _ _ _ hq with hq1 | hq2
        · subst hq1
          simp [dictKeys]
        · exact hcin _ hq2
      · exact h2 _ hp2
    | some compMap =>
      have hcmem : (cls, compMap) ∈ clsMap := dictGet_mem _ _ _ hgc
      have hcmpnd := hcin _ hcmem
      dsimp only
      refine ⟨nodup_keys_dictSet _ _ _ h1, ?_⟩
      intro p hp
      rcases mem_dictSet _ _ _ _ hp with hp1 | hp2
      · subst hp1
        refine ⟨nodup_keys_dictSet _ _ _ hcnd, ?_⟩
        intro q hq
        rcases mem_dictSet _ _ _ _ hq with hq1 | hq2
        · subst hq1
          exact nodup_keys_dictSet _ _ _ hcmpnd
        · exact hcin _ hq2
      · exact h2 _ hp2

/-- Well-formedness of the registry after any registration sequence. -/
theorem registryWF_applyRegOps (ops : List RegOp) :
    RegistryWF (applyRegOps ops) := by
  have hstep : ∀ (rest : List RegOp) (r : Registry), RegistryWF r →
      RegistryWF (rest.foldl
        (fun reg op =>
          _add_handler reg op.code op.component op.cls op.handler op.eventType)
        r) := by
    intro rest
    induction rest with
    | nil => intro r hr; exact hr
    | cons op tl ih =>
      intro r hr
      exact ih _ (registryWF_add _ _ _ _ _ _ hr)
  refine hstep ops [] ⟨List.nodup_nil, ?_⟩
  intro p hp
  simp at hp

/-- After _add_handler, the written triple maps to the new handler. -/
theorem dictGet3_add_self (reg : Registry) (e : Nat) (c : Option Nat)
    (cls : Option String) (h : Nat) (et : Option Nat) :
    (dictGet3 (_add_handler reg e c cls h et) e cls c).map RegValue.fn
      = some h := by
  unfold _add_handler
  cases hge : dictGet reg e with
  | none =>
    dsimp only
    unfold dictGet3
    rw [dictGet_dictSet_self]
    simp [dictGet, RegValue.fn]
  | some clsMap =>
    dsimp only
    cases hgc : dictGet clsMap cls with
    | none =>
      dsimp only
      unfold dictGet3
      rw [dictGet_dictSet_self]
      dsimp only
      rw [dictGet_dictSet_self]
      simp [dictGet, RegValue.fn]
    | some compMap =>
      dsimp only
      unfold dictGet3
      rw [dictGet_dictSet_self]
      dsimp only
      rw [dictGet_dictSet_self]
      dsimp only
      rw [dictGet_dictSet_self]
      simp [RegValue.fn]

/-- C10: after any registration sequence and one further registration, the
global registry still holds at most one entry per (event, class, component)
triple - no duplicate key exists at any of its three dict levels - and the
triple just written maps to the handler of the latest registration: an
identical triple replaces the earlier handler instead of adding a second
entry. -/
theorem registry_unique_per_triple (ops : List RegOp) (e : Nat)
    (c : Option Nat) (cls : Option String) (h : Nat) (et : Option Nat) :
    RegistryWF (_add_handler (applyRegOps ops) e c cls h et) ∧
    (dictGet3 (_add_handler (applyRegOps ops) e c cls h et) e cls c).map
        RegValue.fn = some h :=
  ⟨registryWF_add _ _ _ _ _ _ (registryWF_applyRegOps ops),
   dictGet3_add_self _ _ _ _ _ _⟩

theorem allContinue_cons (x : InvRec) (t : List InvRec) :
    allContinue (x :: t)
      = (decide (x.result = PyRes.pyFalse) && allContinue t) := rfl

theorem ablc_cons (x : InvRec) (t : List InvRec) (ht : t ≠ []) :
    allButLastContinue (x :: t)
      = (decide (x.result = PyRes.pyFalse) && allButLastContinue t) := by
  cases t with
  | nil => exact absurd rfl ht
  | cons y ys => rfl

theorem allButLastContinue_of_allContinue (l : List InvRec)
    (h : allContinue l = true) : allButLastContinue l = true := by
  induction l with
  | nil => rfl
  | cons x xs ih =>
    rw [allContinue_cons, Bool.and_eq_true] at h
    by_cases hnil : xs = []
    · subst hnil; rfl
    · rw [ablc_cons x xs hnil, h.1, Bool.true_and]
      exact ih h.2

theorem allButLastContinue_append (a b : List InvRec)
    (ha : allContinue a = true) (hb : allButLastContinue b = true) :
    allButLastContinue (a ++ b) = true := by
  induction a with
  | nil => simpa using hb
  | cons x xs ih =>
    rw [allContinue_cons, Bool.and_eq_true] at ha
    rw [List.cons_append]
    by_cases hnil : xs ++ b = []
    · rw [hnil]; rfl
    · rw [ablc_cons x (xs ++ b) hnil, ha.1, Bool.true_and]
      exact ih ha.2

theorem allContinue_append_iff (a b : List InvRec) :
    allContinue (a ++ b) = (allContinue a && allContinue b) := by
  simp [allContinue]

/-- The handler loop only ever records Continue results before its last
invocation, and when it falls off the end (returning False) every recorded
invocation returned Continue. -/
theorem tryHandlers_spec (beh : Beh) (objId event : Nat) (idb : IdBlock)
    (pb : List Nat) (lst : List RegValue) :
    allButLastContinue (tryHandlers beh objId event idb pb lst).1 = true ∧
    ((tryHandlers beh objId event idb pb lst).2 = Except.ok false →
      allContinue (tryHandlers beh objId event idb pb lst).1 = true) := by
  induction lst with
  | nil => exact ⟨rfl, fun _ => rfl⟩
  | cons v rest ih =>
    cases v with
    | bare h => exact ⟨rfl, fun _ => rfl⟩
    | entry h dc =>
      cases hd : _data dc pb with
      | error e =>
        simp only [tryHandlers, hd]
        exact ⟨rfl, fun _ => rfl⟩
      | ok d =>
        by_cases hr : beh objId h event idb d = PyRes.pyFalse
        · simp only [tryHandlers, hd, if_pos hr]
          constructor
          · exact allButLastContinue_append [⟨objId, h, beh objId h event idb d⟩]
              _ (by simp [allContinue, hr]) ih.1
          · intro hres
            rw [allContinue_cons, Bool.and_eq_true]
            exact ⟨by simp [hr], ih.2 hres⟩
        · simp only [tryHandlers, hd, if_neg hr]
          refine ⟨rfl, ?_⟩
          intro hres
          simp at hres

/-- One candidate's _dispatch only ever records Continue results before its
last invocation, and when its result is falsy (False or None) every recorded
invocation returned Continue. -/
theorem dispatch_trace_spec (beh : Beh) (objId : Nat) (tbl : InstTable)
    (event : Nat) (idb : IdBlock) (pb : List Nat) :
    allButLastContinue (EventHandler._dispatch beh objId tbl event idb pb).1
        = true ∧
    (∀ r, (EventHandler._dispatch beh objId tbl event idb pb).2 = Except.ok r →
      r.truthy = false →
      allContinue (EventHandler._dispatch beh objId tbl event idb pb).1 = true) := by
  unfold EventHandler._dispatch
  cases hev : dictGet tbl event with
  | none => exact ⟨rfl, fun _ _ _ => rfl⟩
  | some evMap =>
    dsimp only
    cases hcomp : dictGet evMap (some idb.selfComponent) with
    | none =>
      dsimp only
      cases hw : dictGet evMap none with
      | none => exact ⟨rfl, fun _ _ _ => rfl⟩
      | some lst =>
        dsimp only
        have hs := tryHandlers_spec beh objId event idb pb lst
        cases h2 : (tryHandlers beh objId event idb pb lst).2 with
        | error e => exact ⟨hs.1, fun _ hr => by simp at hr⟩
        | ok b =>
          cases b with
          | true =>
            refine ⟨by simpa using hs.1, ?_⟩
            intro r hr ht
            simp at hr
            subst hr
            simp [DispatchRes.truthy] at ht
          | false =>
            refine ⟨by simpa using hs.1, ?_⟩
            intro r hr ht
            simpa using hs.2 h2
    | some lst1 =>
      dsimp only
      have hs1 := tryHandlers_spec beh objId event idb pb lst1
      cases h1 : (tryHandlers beh objId event idb pb lst1).2 with
      | error e => exact ⟨hs1.1, fun _ hr => by simp at hr⟩
      | ok b1 =>
        cases b1 with
        | true =>
          refine ⟨hs1.1, ?_⟩
          intro r hr ht
          simp at hr
          subst hr
          simp [DispatchRes.truthy] at ht
        | false =>
          have hc1 := hs1.2 h1
          dsimp only
          cases hw : dictGet evMap none with
          | none =>
            exact ⟨allButLastContinue_of_allContinue _ hc1, fun _ _ _ => hc1⟩
          | some lst2 =>
            dsimp only
            have hs2 := tryHandlers_spec beh objId event idb pb lst2
            cases h2 : (tryHandlers beh objId event idb pb lst2).2 with
            | error e =>
              exact ⟨allButLastContinue_append _ _ hc1 hs2.1,
                fun _ hr => by simp at hr⟩
            | ok b2 =>
              cases b2 with
              | true =>
                refine ⟨allButLastContinue_append _ _ hc1 hs2.1, ?_⟩
                intro r hr ht
                simp at hr
                subst hr
                simp [DispatchRes.truthy] at ht
              | false =>
                refine ⟨allButLastContinue_append _ _ hc1 hs2.1, ?_⟩
                intro r hr ht
                rw [allContinue_append_iff, hc1, hs2.2 h2]
                rfl

/-- The whole candidate loop only ever records Continue results before its
last invocation. -/
theorem dispatchLoop_trace_spec (beh : Beh) (event : Nat) (idb : IdBlock)
    (pb : List Nat) (objs : List (Nat × InstTable)) :
    allButLastContinue (dispatchLoop beh event idb pb objs).1 = true := by
  induction objs with
  | nil => rfl
  | cons p rest ih =>
    obtain ⟨oid, tbl⟩ := p
    have hd := dispatch_trace_spec beh oid tbl event idb pb
    simp only [dispatchLoop]
    cases hs : (EventHandler._dispatch beh oid tbl event idb pb).2 with
    | error e => exact hd.1
    | ok r =>
      dsimp only
      by_cases ht : r.truthy
      · rw [if_pos ht]
        exact hd.1
      · rw [if_neg ht]
        exact allButLastContinue_append _ _
          (hd.2 r hs (Bool.not_eq_true _ ▸ Bool.of_not_eq_true ht)) ih

/-- C7: in any toolbox dispatch - whatever the registries built the candidate
tables, however the ids resolve, whatever the handlers return - every
recorded handler invocation except possibly the last returned the Continue
sentinel False: the first handler returning anything else, an explicit value
or nothing at all, is the last handler invoked, on any candidate. -/
theorem first_handled_stops_dispatch (setOrder : List Nat → List Nat)
    (beh : Beh) (event_code : Nat) (getObject : Nat → Option TBObject)
    (application : Option TBObject) (idb : IdBlock) (pb : List Nat) :
    allButLastContinue
      (toolbox_dispatch setOrder beh event_code getObject application idb pb).1
      = true :=
  dispatchLoop_trace_spec beh event_code idb pb _

theorem c1Registry_eq (e c hA hB : Nat) (A B : String) (hne : A ≠ B) :
    c1Registry e c hA hB A B
      = [(e, [(some A, [(some c, RegValue.entry hA none)]),
              (some B, [(none, RegValue.entry hB none)])])] := by
  simp [c1Registry, _add_handler, dictGet, dictSet, hne]

theorem c1Table_eq (e c hA hB : Nat) (A B : String) (hne : A ≠ B) :
    c1Table e c hA hB A B
      = [(e, [(none, [RegValue.entry hB none]),
              (some c, [RegValue.entry hA none])])] := by
  rw [c1Table, c1Registry_eq e c hA hB A B hne]
  simp [EventHandler.init, _build_handlers, dictGet, dictSet, hne, Ne.symm hne]

/-- C1 counterexample: handler 1 is registered on class A for event 5 and
component 2; handler 2 is registered on subclass B for event 5 and all
components.  Dispatching event 5 with component 2 to a B instance invokes
A's component-specific handler 1 first and B's wildcard handler 2 second -
the first handler invoked is not B's wildcard handler, contrary to the
claim. -/
theorem wildcard_layer_counterexample :
    ((EventHandler._dispatch (fun _ _ _ _ _ => PyRes.pyFalse) 0
        (c1Table 5 2 1 2 "A" "B") 5 ⟨0, 2, 0, 0⟩ []).1.map InvRec.handler
      = [1, 2]) ∧
    (((EventHandler._dispatch (fun _ _ _ _ _ => PyRes.pyFalse) 0
        (c1Table 5 2 1 2 "A" "B") 5 ⟨0, 2, 0, 0⟩ []).1.map InvRec.handler).head?
      ≠ some 2) := by
  constructor
  · rfl
  · decide

/-- C1 as amended: within one candidate object the component-specific list
is tried before the wildcard list, so the component-specific handler of the
less-derived ancestor class A runs first, and B's more-derived wildcard
handler runs only after it returned Continue - declaring-class layer orders
handlers only inside one component-filter list and does not outrank
component specificity. -/
theorem component_specific_tried_first (e c hA hB oid : Nat) (A B : String)
    (hne : A ≠ B) (beh : Beh) (pb : List Nat) (idb : IdBlock)
    (hc : idb.selfComponent = c) :
    (((EventHandler._dispatch beh oid (c1Table e c hA hB A B) e idb pb).1.map
        InvRec.handler).head? = some hA) ∧
    (beh oid hA e idb pb = PyRes.pyFalse →
      (EventHandler._dispatch beh oid (c1Table e c hA hB A B) e idb pb).1.map
          InvRec.handler = [hA, hB]) := by
  rw [c1Table_eq e c hA hB A B hne]
  by_cases hr : beh oid hA e idb pb = PyRes.pyFalse
  · by_cases hr2 : beh oid hB e idb pb = PyRes.pyFalse
    · constructor
      · simp [EventHandler._dispatch, tryHandlers, _data, dictGet, hc, hr, hr2]
      · intro _
        simp [EventHandler._dispatch, tryHandlers, _data, dictGet, hc, hr, hr2]
    · constructor
      · simp [EventHandler._dispatch, tryHandlers, _data, dictGet, hc, hr, hr2]
      · intro _
        simp [EventHandler._dispatch, tryHandlers, _data, dictGet, hc, hr, hr2]
  · constructor
    · simp [EventHandler._dispatch, tryHandlers, _data, dictGet, hc, hr]
    · intro hh
      exact absurd hh hr

/-- Witness for the amended C1: in the concrete scenario of the
counterexample, with every handler returning Continue, A's component
handler 1 is invoked first and the full invocation order is 1 then 2. -/
theorem component_specific_tried_first_witness :
    (((EventHandler._dispatch (fun _ _ _ _ _ => PyRes.pyFalse) 0
        (c1Table 5 2 1 2 "A" "B") 5 ⟨0, 2, 0, 0⟩ []).1.map
        InvRec.handler).head? = some 1) ∧
    ((EventHandler._dispatch (fun _ _ _ _ _ => PyRes.pyFalse) 0
        (c1Table 5 2 1 2 "A" "B") 5 ⟨0, 2, 0, 0⟩ []).1.map InvRec.handler
      = [1, 2]) := by
  have h := component_specific_tried_first 5 2 1 2 0 "A" "B" (by decide)
    (fun _ _ _ _ _ => PyRes.pyFalse) [] ⟨0, 2, 0, 0⟩ rfl
  exact ⟨h.1, h.2 rfl⟩

theorem c9Registry_eq (e : Nat) (f : Option Nat) (hA hB : Nat)
    (dcA dcB : Option Nat) (A B : String) (hne : A ≠ B) :
    c9Registry e f hA hB dcA dcB A B
      = [(e, [(some A, [(f, RegValue.entry hA dcA)]),
              (some B, [(f, RegValue.entry hB dcB)])])] := by
  simp [c9Registry, _add_handler, dictGet, dictSet, hne]

/-- C9: when class A and its subclass B each register a handler for the same
event e under the same component filter f, the per-instance table a B
instance builds at construction holds both registry entries in the list for
(e, f), with B's more-derived entry first; built by EventHandler.__init__,
it is a pure function of the registry and the class chain. -/
theorem subclass_handler_order (e : Nat) (f : Option Nat) (hA hB : Nat)
    (dcA dcB : Option Nat) (A B : String) (hne : A ≠ B) :
    dictGet2 ((EventHandler.init (c9Registry e f hA hB dcA dcB A B) [] []
        [B, A]).toolbox_handlers) e f
      = some [RegValue.entry hB dcB, RegValue.entry hA dcA] := by
  rw [c9Registry_eq e f hA hB dcA dcB A B hne]
  simp [EventHandler.init, _build_handlers, dictGet2, dictGet, dictSet, hne,
    Ne.symm hne]

/-- Witness for C9: event 7, component filter 3, A's handler 1, B's handler
2; the B instance's table holds the list with B's entry first. -/
theorem subclass_handler_order_witness :
    dictGet2 ((EventHandler.init (c9Registry 7 (some 3) 1 2 none none "A" "B")
        [] [] ["B", "A"]).toolbox_handlers) 7 (some 3)
      = some [RegValue.entry 2 none, RegValue.entry 1 none] :=
  subclass_handler_order 7 (some 3) 1 2 none none "A" "B" (by decide)

/-- C3: when reference r is pending with callback cb, a plain (non-bounce)
message whose your_ref is r fires cb exactly once, with the poll block, and
removes the entry; when cb returned something other than False, processing
stops - no normal dispatch, no handler runs - and when cb returned the
Continue sentinel False the message falls through to normal dispatch.  Once
the entry is gone, any later plain message with your_ref r fires no callback
at all and goes straight to normal dispatch. -/
theorem reply_fired_once_then_normal (setOrder : List Nat → List Nat)
    (beh : Beh) (cbBeh : CbBeh) (getObject : Nat → Option TBObject)
    (application : Option TBObject) (st : ReplyCallbacks) (r cb : Nat)
    (m1 : MessageInfo) (idb : IdBlock) (pb : List Nat)
    (hget : dictGet st r = some cb) (hy1 : m1.your_ref = r)
    (hnb1 : m1.reason ≠ Wimp.UserMessageAcknowledge) :
    ((message_dispatch setOrder beh cbBeh getObject application st m1 idb
        pb).cbCalls = [(cb, some pb)]) ∧
    (dictGet (message_dispatch setOrder beh cbBeh getObject application st m1
        idb pb).state r = none) ∧
    ((cbBeh cb (some pb)).1 ≠ PyRes.pyFalse →
      (message_dispatch setOrder beh cbBeh getObject application st m1 idb
          pb).normal = false ∧
      (message_dispatch setOrder beh cbBeh getObject application st m1 idb
          pb).handlerCalls = []) ∧
    ((cbBeh cb (some pb)).1 = PyRes.pyFalse →
      (message_dispatch setOrder beh cbBeh getObject application st m1 idb
          pb).normal = true) ∧
    (∀ (st2 : ReplyCallbacks) (m2 : MessageInfo) (pb2 : List Nat),
      dictGet st2 r = none → m2.your_ref = r →
      m2.reason ≠ Wimp.UserMessageAcknowledge →
      (message_dispatch setOrder beh cbBeh getObject application st2 m2 idb
          pb2).cbCalls = [] ∧
      (message_dispatch setOrder beh cbBeh getObject application st2 m2 idb
          pb2).normal = true) := by
  refine ⟨?_, ?_, ?_, ?_, ?_⟩
  · simp only [message_dispatch, hy1, hget]
    by_cases hres : (cbBeh cb (some pb)).1 = PyRes.pyFalse
    · simp [hres, hnb1]
    · simp [hres]
  · simp only [message_dispatch, hy1, hget]
    by_cases hres : (cbBeh cb (some pb)).1 = PyRes.pyFalse
    · simp [hres, hnb1, dictGet_dictDel_self]
    · simp [hres, dictGet_dictDel_self]
  · intro hres
    simp only [message_dispatch, hy1, hget]
    simp [hres]
  · intro hres
    simp only [message_dispatch, hy1, hget]
    simp [hres, hnb1]
  · intro st2 m2 pb2 hget2 hy2 hnb2
    constructor
    · simp only [message_dispatch, hy2, hget2]
      simp [hnb2]
    · simp only [message_dispatch, hy2, hget2]
      simp [hnb2]

/-- Witness for C3: with reference 7 pending for callback 1 and a callback
that returns True, the message with your_ref 7 fires the callback once with
the poll block, leaves no entry under 7 and stops; a second message with
your_ref 7 against the emptied table fires nothing and goes to normal
dispatch. -/
theorem reply_fired_once_witness :
    ((message_dispatch pySetIterSmall c3NoBeh c3CbTrue c3GetNone none
        [(7, 1)] c3M1 c3Idb []).cbCalls = [(1, some [])]) ∧
    (dictGet (message_dispatch pySetIterSmall c3NoBeh c3CbTrue c3GetNone none
        [(7, 1)] c3M1 c3Idb []).state 7 = none) ∧
    ((message_dispatch pySetIterSmall c3NoBeh c3CbTrue c3GetNone none
        [(7, 1)] c3M1 c3Idb []).normal = false) ∧
    ((message_dispatch pySetIterSmall c3NoBeh c3CbTrue c3GetNone none
        [] c3M2 c3Idb []).cbCalls = []) ∧
    ((message_dispatch pySetIterSmall c3NoBeh c3CbTrue c3GetNone none
        [] c3M2 c3Idb []).normal = true) := by
  have h := reply_fired_once_then_normal pySetIterSmall c3NoBeh c3CbTrue
    c3GetNone none [(7, 1)] 7 1 c3M1 c3Idb [] (by decide) rfl (by decide)
  refine ⟨h.1, h.2.1, (h.2.2.1 (by decide)).1, ?_, ?_⟩
  · exact (h.2.2.2.2 [] c3M2 [] (by decide) rfl (by decide)).1
  · exact (h.2.2.2.2 [] c3M2 [] (by decide) rfl (by decide)).2

theorem applyAdds_applyAdds (l : ReplyCallbacks) (a b : List (Nat × Nat)) :
    applyAdds (applyAdds l a) b = applyAdds l (a ++ b) := by
  simp [applyAdds, List.foldl_append]

theorem mem_keys_applyAdds (l : ReplyCallbacks) (adds : List (Nat × Nat))
    (a : Nat) :
    a ∈ dictKeys (applyAdds l adds) → a ∈ dictKeys l ∨ a ∈ dictKeys adds := by
  induction adds generalizing l with
  | nil => intro h; exact Or.inl h
  | cons q rest ih =>
    intro h
    have hfold : applyAdds l (q :: rest) = applyAdds (dictSet l q.1 q.2) rest :=
      rfl
    rw [hfold] at h
    rcases ih (dictSet l q.1 q.2) h with hm | hm
    · rcases (mem_keys_dictSet l q.1 q.2 a).mp hm with hm2 | hm2
      · exact Or.inl hm2
      · exact Or.inr (by rw [dictKeys_cons, hm2]; exact List.mem_cons_self _ _)
    · exact Or.inr (by rw [dictKeys_cons]; exact List.mem_cons_of_mem _ hm)

theorem applyAdds_append_fresh (l1 l2 : ReplyCallbacks)
    (adds : List (Nat × Nat)) (hf : ∀ q ∈ adds, q.1 ∉ dictKeys l1) :
    applyAdds (l1 ++ l2) adds = l1 ++ applyAdds l2 adds := by
  induction adds generalizing l2 with
  | nil => rfl
  | cons q rest ih =>
    have hq := hf q (List.mem_cons_self _ _)
    have hstep : applyAdds (l1 ++ l2) (q :: rest)
        = applyAdds (dictSet (l1 ++ l2) q.1 q.2) rest := rfl
    rw [hstep, dictSet_append_fresh l1 l2 q.1 q.2 hq,
      ih (dictSet l2 q.1 q.2) (fun p hp => hf p (List.mem_cons_of_mem _ hp))]
    rfl

/-- One full pass of the null_poll loop over a snapshot of the pending
table, with an arbitrary already-merged tail of fresh additions: it fires
each snapshot callback once with None, in table order, deletes every
snapshot entry and keeps exactly the additions. -/
theorem null_poll_go_spec (cbBeh : CbBeh) (pend : ReplyCallbacks) :
    ∀ (extra : ReplyCallbacks) (tr0 : List (Nat × Option (List Nat))),
    (dictKeys pend).Nodup →
    (∀ p ∈ pend, ∀ q ∈ (cbBeh p.2 none).2, q.1 ∉ dictKeys pend) →
    (∀ p ∈ pend, p.1 ∉ dictKeys extra) →
    null_poll_go cbBeh (dictKeys pend) (pend ++ extra) tr0
      = Except.ok
          (applyAdds extra ((pend.map (fun p => (cbBeh p.2 none).2)).flatten),
           tr0 ++ pend.map (fun p => (p.2, (none : Option (List Nat))))) := by
  induction pend with
  | nil =>
    intro extra tr0 _ _ _
    simp [null_poll_go, dictKeys, applyAdds]
  | cons p rest ih =>
    intro extra tr0 hnd hfresh hdisj
    obtain ⟨r, c⟩ := p
    have hhead : (r, c) ∈ (r, c) :: rest := List.mem_cons_self _ _
    have hfr : ∀ q ∈ (cbBeh c none).2, q.1 ∉ dictKeys ((r, c) :: rest) :=
      hfresh (r, c) hhead
    rw [dictKeys_cons, List.nodup_cons] at hnd
    have hget : dictGet (((r, c) :: rest) ++ extra) r = some c := by
      simp [dictGet]
    have hstate :
        dictDel (applyAdds (((r, c) :: rest) ++ extra) (cbBeh c none).2) r
          = rest ++ applyAdds extra (cbBeh c none).2 := by
      rw [applyAdds_append_fresh _ _ _ hfr, dictDel_append]
      have h1 : dictDel ((r, c) :: rest) r = rest := by
        have hh : dictDel ((r, c) :: rest) r = dictDel rest r := by
          simp [dictDel]
        rw [hh, dictDel_of_not_mem _ _ hnd.1]
      have h2 : dictDel (applyAdds extra (cbBeh c none).2) r
          = applyAdds extra (cbBeh c none).2 := by
        apply dictDel_of_not_mem
        intro hmem
        rcases mem_keys_applyAdds _ _ _ hmem with hm | hm
        · exact hdisj (r, c) hhead hm
        · simp only [dictKeys, List.mem_map] at hm
          obtain ⟨q, hq, hq1⟩ := hm
          exact hfr q hq
            (by rw [hq1, dictKeys_cons]; exact List.mem_cons_self r _)
      rw [h1, h2]
    rw [dictKeys_cons]
    rw [null_poll_go]
    rw [List.cons_append] at hget hstate ⊢
    rw [hget]
    dsimp only
    rw [hstate]
    have ihx := ih (applyAdds extra (cbBeh c none).2) (tr0 ++ [(c, none)])
      hnd.2
      (fun p hp q hq => by
        have := hfresh p (List.mem_cons_of_mem _ hp) q hq
        rw [dictKeys_cons] at this
        exact fun hmem => this (List.mem_cons_of_mem _ hmem))
      (fun p hp => by
        intro hmem
        rcases mem_keys_applyAdds _ _ _ hmem with hm | hm
        · exact hdisj p (List.mem_cons_of_mem _ hp) hm
        · simp only [dictKeys, List.mem_map] at hm
          obtain ⟨q, hq, hq1⟩ := hm
          refine hfr q hq ?_
          rw [hq1, dictKeys_cons]
          exact List.mem_cons_of_mem _ (List.mem_map_of_mem Prod.fst hp))
    rw [ihx, applyAdds_applyAdds]
    simp

/-- C4: an idle drain over a pending-reply table with distinct reference
numbers, whose callbacks only register replies under reference numbers that
are fresh (not keys of the table at the start of the pass, as Wimp-assigned
my_ref values are), fires exactly the callbacks present at the start, once
each, in table order, each with the no-reply sentinel None; every entry that
existed at the start is removed, and the entries added by the callbacks
during the pass survive it undrained. -/
theorem idle_drain_spec (cbBeh : CbBeh) (st : ReplyCallbacks)
    (hnd : (dictKeys st).Nodup)
    (hfresh : ∀ p ∈ st, ∀ q ∈ (cbBeh p.2 none).2, q.1 ∉ dictKeys st) :
    (null_poll cbBeh st
      = Except.ok
          (applyAdds [] ((st.map (fun p => (cbBeh p.2 none).2)).flatten),
           st.map (fun p => (p.2, (none : Option (List Nat)))))) ∧
    ∀ p ∈ st,
      dictGet (applyAdds [] ((st.map (fun p => (cbBeh p.2 none).2)).flatten)) p.1
        = none := by
  constructor
  · have h := null_poll_go_spec cbBeh st [] [] hnd hfresh
      (by intro p hp; simp [dictKeys])
    rw [List.append_nil] at h
    simpa [null_poll] using h
  · intro p hp
    apply dictGet_eq_none_of_not_mem
    intro hmem
    rcases mem_keys_applyAdds _ _ _ hmem with hm | hm
    · simp [dictKeys] at hm
    · simp only [dictKeys, List.mem_map] at hm
      obtain ⟨q, hqj, hq1⟩ := hm
      rw [List.mem_flatten] at hqj
      obtain ⟨l, hl, hql⟩ := hqj
      rw [List.mem_map] at hl
      obtain ⟨pi, hpi, rfl⟩ := hl
      have hq := hfresh pi hpi q hql
      rw [hq1] at hq
      exact hq (List.mem_map_of_mem Prod.fst hp)

/-- Witness for C4: two pending replies, 1 for callback 10 and 2 for
callback 11; callback 10 sends a message registering fresh reference 5.
The drain fires 10 then 11, each with None, and leaves exactly the entry
added during the pass. -/
theorem idle_drain_witness :
    null_poll c4CbBeh [(1, 10), (2, 11)]
      = Except.ok ([(5, 12)], [(10, none), (11, none)]) := by
  have h := (idle_drain_spec c4CbBeh [(1, 10), (2, 11)] (by decide)
    (by decide)).1
  rw [h]
  rfl

end RiscosToolbox
